import Mathlib

/-!
Shallow embedding of `internal/logging/logging.go` (the esbuild diagnostics
subsystem).  Strings are modelled as `List Char`, one entry per code point;
every input exercised below is ASCII, where code-point offsets coincide with
Go's byte offsets.  Go `int` arithmetic that can become negative is modelled
with `Int`, and Go's `/` (truncation toward zero) with `Int.tdiv`.  Go slice
expressions `s[a:b]` are modelled as `(s.take b).drop a`; where the Go code
would panic on an out-of-range slice, this totalised form simply returns a
shorter list, which is noted at the relevant theorem.
-/

namespace Logging

/-- `ast.Loc`: a byte offset into a source file. -/
structure Loc where
  Start : Nat
  deriving DecidableEq, Repr

/-- `ast.Range`: a location plus a length. -/
structure Range where
  Loc : Loc
  Len : Nat
  deriving DecidableEq, Repr

/-- `MsgKind` from logging.go (Error | Warning). -/
inductive MsgKind where
  | Error
  | Warning
  deriving DecidableEq, Repr

/-- `Source` from logging.go. -/
structure Source where
  Index : Nat
  AbsolutePath : List Char
  PrettyPath : List Char
  Contents : List Char
  deriving DecidableEq, Repr

/-- `Msg` from logging.go. -/
structure Msg where
  Source : Option Source
  Start : Nat
  Length : Nat
  Text : List Char
  Kind : MsgKind
  deriving DecidableEq, Repr

/-- `Source.TextForRange`: `s.Contents[r.Loc.Start : r.Loc.Start+r.Len]`. -/
def Source.TextForRange (s : Source) (r : Range) : List Char :=
  (s.Contents.take (r.Loc.Start + r.Len)).drop r.Loc.Start

/-- The scanning loop of `Source.RangeOfString`: Go's
`for i := 1; i < len(text); i++ { c := text[i]; if c == quote { return i+1 }
else if c == '\\' { i += 1 } }`, expressed as structural recursion over the
remaining characters, carrying the Go index `i`.  Returns the index of the
matching quote, or `none`. -/
def rangeOfStringAux (quote : Char) : List Char → Nat → Option Nat
  | [], _ => none
  | c :: rest, i =>
    if c = quote then some i
    else if c = '\\' then
      match rest with
      | [] => none
      | _ :: rest2 => rangeOfStringAux quote rest2 (i + 2)
    else rangeOfStringAux quote rest (i + 1)

/-- `Source.RangeOfString` from logging.go. -/
def Source.RangeOfString (s : Source) (loc : Loc) : Range :=
  let text := s.Contents.drop loc.Start
  match text with
  | [] => ⟨loc, 0⟩
  | quote :: rest =>
    if quote = '"' ∨ quote = '\'' then
      match rangeOfStringAux quote rest 1 with
      | some i => ⟨loc, i + 1⟩
      | none => ⟨loc, 0⟩
    else ⟨loc, 0⟩

/-- `stderrLogInfo` from logging.go. -/
structure stderrLogInfo where
  msgs : List Msg
  errors : Nat
  warnings : Nat
  errorLimitWasHit : Bool
  deriving DecidableEq, Repr

/-- A decimal digit character, as produced by Go's `fmt.Sprintf("%d", ...)`. -/
def digitChar (d : Nat) : Char :=
  if d = 0 then '0' else if d = 1 then '1' else if d = 2 then '2'
  else if d = 3 then '3' else if d = 4 then '4' else if d = 5 then '5'
  else if d = 6 then '6' else if d = 7 then '7' else if d = 8 then '8'
  else '9'

/-- Fuel-driven accumulator loop for decimal rendering (structural recursion
so that concrete values reduce in the kernel). -/
def natReprAux : Nat → Nat → List Char → List Char
  | 0, _, acc => acc
  | fuel + 1, n, acc =>
    if n < 10 then digitChar n :: acc
    else natReprAux fuel (n / 10) (digitChar (n % 10) :: acc)

/-- Decimal rendering of a natural number, modelling Go's `%d` verb. -/
def natRepr (n : Nat) : List Char := natReprAux (n + 1) n []

/-- `plural` from logging.go (the Go parameter is named `prefix`). -/
def plural (p : List Char) (count : Nat) : List Char :=
  if count = 1 then natRepr count ++ [' '] ++ p
  else natRepr count ++ [' '] ++ p ++ ['s']

/-- `stderrLogInfo.String` from logging.go. -/
def stderrLogInfo.String (counts : stderrLogInfo) : List Char :=
  if counts.errors = 0 then
    if counts.warnings = 0 then "no errors".data
    else plural "warning".data counts.warnings
  else
    if counts.warnings = 0 then plural "error".data counts.errors
    else plural "warning".data counts.warnings ++ " and ".data ++
      plural "error".data counts.errors

/-- `TerminalInfo` from logging.go.  `Width` is a Go `int`. -/
structure TerminalInfo where
  IsTTY : Bool
  UseColorEscapes : Bool
  Width : Int
  deriving DecidableEq, Repr

/-- `StderrColor` from logging.go (ColorIfTerminal | ColorNever | ColorAlways). -/
inductive StderrColor where
  | ColorIfTerminal
  | ColorNever
  | ColorAlways
  deriving DecidableEq, Repr

/-- `LogLevel` values from logging.go (`iota` over an `int8`). -/
def LevelNone : Nat := 0

/-- `LevelInfo` from logging.go. -/
def LevelInfo : Nat := 1

/-- `LevelWarning` from logging.go. -/
def LevelWarning : Nat := 2

/-- `LevelError` from logging.go. -/
def LevelError : Nat := 3

/-- `StderrOptions` from logging.go.  `ErrorLimit` is non-negative in every
use (`0` means unlimited), so it is modelled as `Nat`. -/
structure StderrOptions where
  IncludeSource : Bool
  ErrorLimit : Nat
  Color : StderrColor
  LogLevel : Nat
  deriving DecidableEq, Repr

/-- The loop of `ComputeLineAndColumn`, carrying Go's loop state
`(i, prevCodePoint, lineCount, lastLineStart)`; returns the final
`(lineCount, lastLineStart)`. -/
def computeLineAndColumnGo : List Char → Nat → Char → Nat → Nat → Nat × Nat
  | [], _, _, lineCount, lastLineStart => (lineCount, lastLineStart)
  | c :: rest, i, prev, lineCount, lastLineStart =>
    if c = '\n' then
      computeLineAndColumnGo rest (i + 1) c
        (if prev = '\r' then lineCount else lineCount + 1) (i + 1)
    else if c = '\r' ∨ c = '\u2028' ∨ c = '\u2029' then
      computeLineAndColumnGo rest (i + 1) c lineCount (i + 1)
    else
      computeLineAndColumnGo rest (i + 1) c lineCount lastLineStart

/-- `ComputeLineAndColumn` from logging.go: returns
`(lineCount, columnCount, lastLineStart)`.  Go initialises `prevCodePoint`
to the zero rune. -/
def ComputeLineAndColumn (text : List Char) : Nat × Nat × Nat :=
  let r := computeLineAndColumnGo text 0 (Char.ofNat 0) 0 0
  (r.1, text.length - r.2, r.2)

/-- The scan for `lineEnd` in `detailStruct`: index (relative to the start of
the scanned list) of the first line-boundary character. -/
def findLineEndAux : List Char → Nat → Option Nat
  | [], _ => none
  | c :: rest, i =>
    if c = '\r' ∨ c = '\n' ∨ c = '\u2028' ∨ c = '\u2029' then some i
    else findLineEndAux rest (i + 1)

/-- `lineEnd` computation in `detailStruct` (lines 331-340): the absolute
index of the first boundary character at or after `lineStart`, defaulting to
`len(contents)`. -/
def findLineEnd (contents : List Char) (lineStart : Nat) : Nat :=
  match findLineEndAux (contents.drop lineStart) 0 with
  | some i => lineStart + i
  | none => contents.length

/-- `strings.ContainsRune`, specialised to the use in `renderTabStops`. -/
def containsRune : List Char → Char → Bool
  | [], _ => false
  | c :: rest, r => if c = r then true else containsRune rest r

/-- The expansion loop of `renderTabStops`, carrying the running expanded
column `count`. -/
def renderTabStopsGo (spacesPerTab : Nat) : List Char → Nat → List Char
  | [], _ => []
  | c :: rest, count =>
    if c = '\t' then
      let spaces := spacesPerTab - count % spacesPerTab
      List.replicate spaces ' ' ++ renderTabStopsGo spacesPerTab rest (count + spaces)
    else
      c :: renderTabStopsGo spacesPerTab rest (count + 1)

/-- `renderTabStops` from logging.go, including its no-tab fast path. -/
def renderTabStops (withTabs : List Char) (spacesPerTab : Nat) : List Char :=
  if containsRune withTabs '\t' = false then withTabs
  else renderTabStopsGo spacesPerTab withTabs 0

/-- `MsgDetail` from logging.go. -/
structure MsgDetail where
  Path : List Char
  Line : Nat
  Column : Nat
  Kind : List Char
  Message : List Char
  Source : List Char
  SourceBefore : List Char
  SourceMarked : List Char
  SourceAfter : List Char
  Indent : List Char
  Marker : List Char
  deriving DecidableEq, Repr

/-- The `sliceStart` computation of the width-trimming block of
`detailStruct` (lines 368-377 of logging.go): centre the marker, cap at
`markerStart - width/5`, then clamp to `≥ 0` and to `≤ lineLen - width`, in
that order.  All arithmetic is Go `int` arithmetic (`Int` with `Int.tdiv`
for `/`). -/
def clipSliceStart (width lineLen markerStart markerEnd : Int) : Int :=
  let sliceStart := Int.tdiv (markerStart + markerEnd - width) 2
  let sliceStart := if sliceStart > markerStart - Int.tdiv width 5 then
    markerStart - Int.tdiv width 5 else sliceStart
  let sliceStart := if sliceStart < 0 then 0 else sliceStart
  if sliceStart > lineLen - width then lineLen - width else sliceStart

/-- The left `"..."` truncation of the width-trimming block (lines 392-397
of logging.go): replace the first three characters and raise `markerStart`
to at least 3. -/
def truncLeft (sliceStart : Int) (slicedLine : List Char) (markerStart : Int) :
    List Char × Int :=
  if slicedLine.length > 3 ∧ sliceStart > 0 then
    ("...".data ++ slicedLine.drop 3,
     if markerStart < 3 then (3 : Int) else markerStart)
  else (slicedLine, markerStart)

/-- The right `"..."` truncation of the width-trimming block (lines 398-406
of logging.go): replace the last three characters, lower `markerEnd` to at
most `len - 3`, and repair `markerEnd ≥ markerStart`. -/
def truncRight (lineLen sliceEnd : Int) (slicedLine : List Char)
    (markerStart markerEnd : Int) : List Char × Int :=
  if slicedLine.length > 3 ∧ sliceEnd < lineLen then
    let s2 := slicedLine.take (slicedLine.length - 3) ++ "...".data
    let me := if markerEnd > (s2.length : Int) - 3 then
      (s2.length : Int) - 3 else markerEnd
    let me := if me < markerStart then markerStart else me
    (s2, me)
  else (slicedLine, markerEnd)

/-- The width-trimming block of `detailStruct` (lines 365-411 of logging.go),
acting on the expanded line and the already line-clipped marker bounds;
returns the final `(lineText, markerStart, markerEnd)`. -/
def clipToWidth (width : Int) (lineText : List Char)
    (markerStart markerEnd : Int) : List Char × Int × Int :=
  if width > 0 ∧ (lineText.length : Int) > width then
    let sliceStart := clipSliceStart width (lineText.length : Int) markerStart markerEnd
    let sliceEnd := sliceStart + width
    let slicedLine := (lineText.take sliceEnd.toNat).drop sliceStart.toNat
    let markerStart2 := markerStart - sliceStart
    let markerEnd2 := markerEnd - sliceStart
    let markerStart2 := if markerStart2 < 0 then 0 else markerStart2
    let markerEnd2 := if markerEnd2 > (slicedLine.length : Int) then
      (slicedLine.length : Int) else markerEnd2
    let p := truncLeft sliceStart slicedLine markerStart2
    let q := truncRight (lineText.length : Int) sliceEnd p.1 p.2 markerEnd2
    (q.1, p.2, q.2)
  else (lineText, markerStart, markerEnd)

/-- `detailStruct` from logging.go.  The Go function dereferences
`msg.Source`; the dereferenced source is passed here explicitly as `src`.
In the width branch Go recomputes the indent from the final `markerStart`;
outside it, the indent stays at its initial value (the expanded length of
`contents[lineStart:msg.Start]`) even when the marker bounds were clipped to
the line.  Note that Go's `lineText[markerStart:markerEnd]` panics when
`markerStart > markerEnd`; the totalised `take`/`drop` form used here
returns a list that then fails the `Source == Before ++ Marked ++ After`
equation instead. -/
def detailStruct (src : Source) (msg : Msg) (terminalInfo : TerminalInfo) :
    MsgDetail :=
  let contents := src.Contents
  let t := ComputeLineAndColumn (contents.take msg.Start)
  let lineCount := t.1
  let columnCount := t.2.1
  let lineStart := t.2.2
  let lineEnd := findLineEnd contents lineStart
  let spacesPerTab := 2
  let lineText := renderTabStops ((contents.take lineEnd).drop lineStart) spacesPerTab
  let indentLen :=
    (renderTabStops ((contents.take msg.Start).drop lineStart) spacesPerTab).length
  let markerStart : Int := (indentLen : Int)
  let markerEnd : Int :=
    if msg.Length > 0 then
      ((renderTabStops ((contents.take (msg.Start + msg.Length)).drop lineStart)
        spacesPerTab).length : Int)
    else (indentLen : Int)
  let markerStart := if markerStart > (lineText.length : Int) then
    (lineText.length : Int) else markerStart
  let markerEnd := if markerEnd > (lineText.length : Int) then
    (lineText.length : Int) else markerEnd
  let markerEnd := if markerEnd < markerStart then markerStart else markerEnd
  let clipped := clipToWidth terminalInfo.Width lineText markerStart markerEnd
  let lineText2 := clipped.1
  let markerStart2 := clipped.2.1
  let markerEnd2 := clipped.2.2
  let indent :=
    if terminalInfo.Width > 0 ∧ (lineText.length : Int) > terminalInfo.Width then
      List.replicate markerStart2.toNat ' '
    else List.replicate indentLen ' '
  let marker :=
    if markerEnd2 - markerStart2 > 1 then
      List.replicate (markerEnd2 - markerStart2).toNat '~'
    else ['^']
  { Path := src.PrettyPath
    Line := lineCount + 1
    Column := columnCount
    Kind := if msg.Kind = MsgKind.Warning then "warning".data else "error".data
    Message := msg.Text
    Source := lineText2
    SourceBefore := lineText2.take markerStart2.toNat
    SourceMarked := (lineText2.take markerEnd2.toNat).drop markerStart2.toNat
    SourceAfter := lineText2.drop markerEnd2.toNat
    Indent := indent
    Marker := marker }

/-- `colorReset` from logging.go. -/
def colorReset : List Char := "\x1b[0m".data

/-- `colorRed` from logging.go. -/
def colorRed : List Char := "\x1b[31m".data

/-- `colorGreen` from logging.go. -/
def colorGreen : List Char := "\x1b[32m".data

/-- `colorMagenta` from logging.go. -/
def colorMagenta : List Char := "\x1b[35m".data

/-- `colorBold` from logging.go. -/
def colorBold : List Char := "\x1b[1m".data

/-- `colorResetBold` from logging.go. -/
def colorResetBold : List Char := "\x1b[0;1m".data
/-- The ANSI escape character, the first byte of every color escape. -/
def esc : Char := '\x1b'

/-- Modelled from the spec: the platform constant `SupportsColorEscapes`
(defined in a per-platform file of this repository that is not part of the
sources here).  The spec states that color mode `Always` enables color
"overriding support detection", so on the modelled platform the constant is
`true`. -/
def SupportsColorEscapes : Bool := true

/-- The `switch options.Color` adjustment performed by `NewStderrLog`
(lines 121-126 of logging.go) on the probed terminal descriptor. -/
def applyColorMode (t : TerminalInfo) (mode : StderrColor) : TerminalInfo :=
  match mode with
  | StderrColor.ColorNever => { t with UseColorEscapes := false }
  | StderrColor.ColorAlways => { t with UseColorEscapes := SupportsColorEscapes }
  | StderrColor.ColorIfTerminal => t

/-- `Msg.String` from logging.go.  Go's `fmt.Sprintf` calls are expanded
into the corresponding concatenations. -/
def msgString (msg : Msg) (options : StderrOptions)
    (terminalInfo : TerminalInfo) : List Char :=
  let kind := if msg.Kind = MsgKind.Warning then "warning".data else "error".data
  let kindColor := if msg.Kind = MsgKind.Warning then colorMagenta else colorRed
  match msg.Source with
  | none =>
    if terminalInfo.UseColorEscapes then
      colorBold ++ kindColor ++ kind ++ ": ".data ++ colorResetBold ++
        msg.Text ++ colorReset ++ "\n".data
    else
      kind ++ ": ".data ++ msg.Text ++ "\n".data
  | some src =>
    if options.IncludeSource = false then
      if terminalInfo.UseColorEscapes then
        colorBold ++ src.PrettyPath ++ ": ".data ++ kindColor ++ kind ++
          ": ".data ++ colorResetBold ++ msg.Text ++ colorReset ++ "\n".data
      else
        src.PrettyPath ++ ": ".data ++ kind ++ ": ".data ++ msg.Text ++ "\n".data
    else
      let d := detailStruct src msg terminalInfo
      if terminalInfo.UseColorEscapes then
        colorBold ++ d.Path ++ ":".data ++ natRepr d.Line ++ ":".data ++
          natRepr d.Column ++ ": ".data ++ kindColor ++ d.Kind ++ ": ".data ++
          colorResetBold ++ d.Message ++ "\n".data ++ colorReset ++
          d.SourceBefore ++ colorGreen ++ d.SourceMarked ++ colorReset ++
          d.SourceAfter ++ "\n".data ++ colorGreen ++ d.Indent ++ d.Marker ++
          colorReset ++ "\n".data
      else
        d.Path ++ ":".data ++ natRepr d.Line ++ ":".data ++
          natRepr d.Column ++ ": ".data ++ d.Kind ++ ": ".data ++
          d.Message ++ "\n".data ++ d.Source ++ "\n".data ++
          d.Indent ++ d.Marker ++ "\n".data

/-- The limit-notice line written by the worker of `NewStderrLog`
(line 155 of logging.go). -/
def limitNotice (result : stderrLogInfo) : List Char :=
  stderrLogInfo.String result ++
    " reached (disable error limit with --error-limit=0)\n".data

/-- One iteration of the worker loop inside `NewStderrLog` (lines 130-158 of
logging.go).  The state is the accumulating `stderrLogInfo` together with the
list of strings written to stderr so far. -/
def logStep (options : StderrOptions) (terminalInfo : TerminalInfo)
    (st : stderrLogInfo × List (List Char)) (msg : Msg) :
    stderrLogInfo × List (List Char) :=
  let result := st.1
  let out := st.2
  let result := { result with msgs := result.msgs ++ [msg] }
  if result.errorLimitWasHit then (result, out)
  else
    let step :=
      match msg.Kind with
      | MsgKind.Error =>
        let result := { result with errors := result.errors + 1 }
        if options.LogLevel ≤ LevelError then
          (result, out ++ [msgString msg options terminalInfo])
        else (result, out)
      | MsgKind.Warning =>
        let result := { result with warnings := result.warnings + 1 }
        if options.LogLevel ≤ LevelWarning then
          (result, out ++ [msgString msg options terminalInfo])
        else (result, out)
    let result := step.1
    let out := step.2
    if options.ErrorLimit ≠ 0 ∧ result.errors ≥ options.ErrorLimit then
      ({ result with errorLimitWasHit := true },
       if options.LogLevel ≤ LevelError then out ++ [limitNotice result]
       else out)
    else (result, out)

/-- The worker of `NewStderrLog` run over a whole (already serialised) list
of enqueued messages: the drained state and everything written to stderr. -/
def runStderrLog (options : StderrOptions) (terminalInfo : TerminalInfo)
    (msgs : List Msg) : stderrLogInfo × List (List Char) :=
  msgs.foldl (logStep options terminalInfo) (⟨[], 0, 0, false⟩, [])

/-- The finalize closure returned by `NewStderrLog` (lines 162-172 of
logging.go): closes the channel, drains the worker, conditionally writes the
trailing summary line, and returns the accumulated messages.  Result: the
returned message list and the complete list of strings written to stderr. -/
def finalizeStderrLog (options : StderrOptions) (terminalInfo : TerminalInfo)
    (msgs : List Msg) : List Msg × List (List Char) :=
  let r := runStderrLog options terminalInfo msgs
  if r.1.errorLimitWasHit = false ∧ options.LogLevel ≤ LevelInfo ∧
      (r.1.warnings ≠ 0 ∨ r.1.errors ≠ 0) then
    (r.1.msgs, r.2 ++ [stderrLogInfo.String r.1 ++ "\n".data])
  else (r.1.msgs, r.2)

/-- The worker of `NewDeferLog` (lines 205-216 of logging.go) run over a
list of enqueued messages: it only accumulates, writing nothing. -/
def runDeferLog (msgs : List Msg) : List Msg × List (List Char) :=
  (msgs.foldl (fun acc msg => acc ++ [msg]) [], [])

/-! ### Helper lemmas -/

/-- The expansion loop is the identity on tab-free input. -/
theorem renderTabStopsGo_no_tab (n : Nat) :
    ∀ (l : List Char) (count : Nat), containsRune l '\t' = false →
      renderTabStopsGo n l count = l := by
  intro l
  induction l with
  | nil => intro count _; rfl
  | cons a rest ih =>
    intro count h
    rw [containsRune] at h
    by_cases ha : a = '\t'
    · rw [if_pos ha] at h; cases h
    · rw [if_neg ha] at h
      rw [renderTabStopsGo, if_neg ha, ih (count + 1) h]

/-! ### Claims -/

/-- C6: `plural noun 1 = "1 <noun>"`, `plural noun n = "<n> <noun>s"` for
`n ≠ 1`; the combined summary is "no errors" when both counters are zero,
the errors phrase alone when warnings are zero, the warnings phrase alone
when errors are zero, and "<warnings> and <errors>" otherwise; 2 errors and
1 warning yield "1 warning and 2 errors". -/
theorem c6_plural_and_summary :
    (∀ noun : List Char, plural noun 1 = "1 ".data ++ noun) ∧
    (∀ (noun : List Char) (n : Nat), n ≠ 1 →
      plural noun n = natRepr n ++ " ".data ++ noun ++ "s".data) ∧
    (∀ info : stderrLogInfo, info.errors = 0 → info.warnings = 0 →
      stderrLogInfo.String info = "no errors".data) ∧
    (∀ info : stderrLogInfo, info.warnings = 0 → info.errors ≠ 0 →
      stderrLogInfo.String info = plural "error".data info.errors) ∧
    (∀ info : stderrLogInfo, info.errors = 0 → info.warnings ≠ 0 →
      stderrLogInfo.String info = plural "warning".data info.warnings) ∧
    (∀ info : stderrLogInfo, info.errors ≠ 0 → info.warnings ≠ 0 →
      stderrLogInfo.String info =
        plural "warning".data info.warnings ++ " and ".data ++
          plural "error".data info.errors) ∧
    stderrLogInfo.String ⟨[], 2, 1, false⟩ = "1 warning and 2 errors".data := by
  refine ⟨fun noun => rfl, fun noun n h => ?_, fun info h1 h2 => ?_,
    fun info h1 h2 => ?_, fun info h1 h2 => ?_, fun info h1 h2 => ?_, by decide⟩
  · simp [plural, h]
  · simp [stderrLogInfo.String, h1, h2]
  · simp [stderrLogInfo.String, h1, h2]
  · simp [stderrLogInfo.String, h1, h2]
  · simp [stderrLogInfo.String, h1, h2]

/-- C8: with the fixed tab width of 2 used by `detailStruct`, each tab
advances the expanded column to the next multiple of 2, emitting 1 or 2
spaces; every other character passes through unchanged advancing the column
by 1; `"\tx"` expands to two spaces followed by `x`; and the indent is
computed against the expanded line (pointing at `x` in `"\tx"` yields an
indent of two spaces, not one). -/
theorem c8_tab_expansion :
    (∀ (rest : List Char) (count : Nat),
      renderTabStopsGo 2 ('\t' :: rest) count =
        List.replicate (2 - count % 2) ' ' ++
          renderTabStopsGo 2 rest (count + (2 - count % 2)) ∧
      (2 - count % 2 = 1 ∨ 2 - count % 2 = 2) ∧
      count + (2 - count % 2) = 2 * (count / 2 + 1)) ∧
    (∀ (c : Char) (rest : List Char) (count : Nat), c ≠ '\t' →
      renderTabStopsGo 2 (c :: rest) count =
        c :: renderTabStopsGo 2 rest (count + 1)) ∧
    renderTabStops "\tx".data 2 = "  x".data ∧
    (detailStruct ⟨0, "p".data, "p".data, "\tx".data⟩
      ⟨some ⟨0, "p".data, "p".data, "\tx".data⟩, 1, 0, "t".data, MsgKind.Error⟩
      ⟨true, false, 0⟩).Indent = "  ".data := by
  refine ⟨fun rest count => ⟨?_, ?_, ?_⟩, fun c rest count h => ?_, by decide, by decide⟩
  · rw [renderTabStopsGo, if_pos rfl]
  · omega
  · omega
  · rw [renderTabStopsGo, if_neg h]

/-- C10: `renderTabStops` returns its input unchanged when it contains no
tab, and the fast path agrees with the general expansion loop, so the
optimised function and the plain expansion are equivalent for every input
and every `spacesPerTab ≥ 1`. -/
theorem c10_fastpath_equivalence (l : List Char) (n : Nat) (h : 1 ≤ n) :
    (containsRune l '\t' = false → renderTabStops l n = l) ∧
    renderTabStops l n = renderTabStopsGo n l 0 := by
  refine ⟨fun hn => by rw [renderTabStops, if_pos hn], ?_⟩
  by_cases hn : containsRune l '\t' = false
  · rw [renderTabStops, if_pos hn, renderTabStopsGo_no_tab n l 0 hn]
  · rw [renderTabStops, if_neg hn]

/-- Witness for C10 at a concrete input. -/
theorem c10_fastpath_equivalence_witness :
    (1 ≤ 2) ∧
    ((containsRune "ab".data '\t' = false → renderTabStops "ab".data 2 = "ab".data) ∧
      renderTabStops "ab".data 2 = renderTabStopsGo 2 "ab".data 0) :=
  ⟨by decide, c10_fastpath_equivalence "ab".data 2 (by decide)⟩

/-- C3: for a 100-column expanded line with marker bounds [50, 52] and a
terminal width of 20, the clipped display line has exactly 20 columns,
begins and ends with "...", and the translated marker (2 columns wide,
starting at display column 9) stays visible inside the slice. -/
theorem c3_width_clipping :
    (detailStruct ⟨0, "p".data, "p".data, List.replicate 100 'x'⟩
      ⟨some ⟨0, "p".data, "p".data, List.replicate 100 'x'⟩, 50, 2, "t".data,
        MsgKind.Error⟩ ⟨true, false, 20⟩).Source.length = 20 ∧
    (detailStruct ⟨0, "p".data, "p".data, List.replicate 100 'x'⟩
      ⟨some ⟨0, "p".data, "p".data, List.replicate 100 'x'⟩, 50, 2, "t".data,
        MsgKind.Error⟩ ⟨true, false, 20⟩).Source.take 3 = "...".data ∧
    (detailStruct ⟨0, "p".data, "p".data, List.replicate 100 'x'⟩
      ⟨some ⟨0, "p".data, "p".data, List.replicate 100 'x'⟩, 50, 2, "t".data,
        MsgKind.Error⟩ ⟨true, false, 20⟩).Source.drop 17 = "...".data ∧
    (detailStruct ⟨0, "p".data, "p".data, List.replicate 100 'x'⟩
      ⟨some ⟨0, "p".data, "p".data, List.replicate 100 'x'⟩, 50, 2, "t".data,
        MsgKind.Error⟩ ⟨true, false, 20⟩).SourceBefore.length = 9 ∧
    (detailStruct ⟨0, "p".data, "p".data, List.replicate 100 'x'⟩
      ⟨some ⟨0, "p".data, "p".data, List.replicate 100 'x'⟩, 50, 2, "t".data,
        MsgKind.Error⟩ ⟨true, false, 20⟩).SourceMarked = "xx".data ∧
    (detailStruct ⟨0, "p".data, "p".data, List.replicate 100 'x'⟩
      ⟨some ⟨0, "p".data, "p".data, List.replicate 100 'x'⟩, 50, 2, "t".data,
        MsgKind.Error⟩ ⟨true, false, 20⟩).SourceBefore ++
      (detailStruct ⟨0, "p".data, "p".data, List.replicate 100 'x'⟩
        ⟨some ⟨0, "p".data, "p".data, List.replicate 100 'x'⟩, 50, 2, "t".data,
          MsgKind.Error⟩ ⟨true, false, 20⟩).SourceMarked ++
      (detailStruct ⟨0, "p".data, "p".data, List.replicate 100 'x'⟩
        ⟨some ⟨0, "p".data, "p".data, List.replicate 100 'x'⟩, 50, 2, "t".data,
          MsgKind.Error⟩ ⟨true, false, 20⟩).SourceAfter =
      (detailStruct ⟨0, "p".data, "p".data, List.replicate 100 'x'⟩
        ⟨some ⟨0, "p".data, "p".data, List.replicate 100 'x'⟩, 50, 2, "t".data,
          MsgKind.Error⟩ ⟨true, false, 20⟩).Source ∧
    (detailStruct ⟨0, "p".data, "p".data, List.replicate 100 'x'⟩
      ⟨some ⟨0, "p".data, "p".data, List.replicate 100 'x'⟩, 50, 2, "t".data,
        MsgKind.Error⟩ ⟨true, false, 20⟩).Indent = List.replicate 9 ' ' ∧
    (detailStruct ⟨0, "p".data, "p".data, List.replicate 100 'x'⟩
      ⟨some ⟨0, "p".data, "p".data, List.replicate 100 'x'⟩, 50, 2, "t".data,
        MsgKind.Error⟩ ⟨true, false, 20⟩).Marker = "~~".data := by
  decide

/-- C1 (divergence): the line/column scan never increments the line counter
on a bare `\r`, and the increment for `\n` is suppressed when the previous
character was `\r` -- so for contents `"a\r\nb"` with the message at the
offset of `b`, the reported 1-based line is 1, not the 2 the specification
states. -/
theorem c1_crlf_divergence :
    (ComputeLineAndColumn "a\r\n".data).1 = 0 ∧
    (ComputeLineAndColumn "a\n".data).1 = 1 ∧
    (detailStruct ⟨0, "p".data, "p".data, "a\r\nb".data⟩
      ⟨some ⟨0, "p".data, "p".data, "a\r\nb".data⟩, 3, 0, "t".data,
        MsgKind.Error⟩ ⟨true, false, 0⟩).Line = 1 := by
  decide

/-- C9 (divergence): for contents `"abcdefg"`, a point message at offset 5
and terminal width 4, the width-clipping step raises `markerStart` to 3
while `markerEnd` stays 2, so the displayed-line split breaks the invariant
`Source == SourceBefore ++ SourceMarked ++ SourceAfter` documented at the
`MsgDetail` declaration (Go panics slicing `lineText[3:2]`). -/
theorem c9_marker_bounds_divergence :
    (detailStruct ⟨0, "p".data, "p".data, "abcdefg".data⟩
      ⟨some ⟨0, "p".data, "p".data, "abcdefg".data⟩, 5, 0, "t".data,
        MsgKind.Error⟩ ⟨true, false, 4⟩).SourceBefore ++
      (detailStruct ⟨0, "p".data, "p".data, "abcdefg".data⟩
        ⟨some ⟨0, "p".data, "p".data, "abcdefg".data⟩, 5, 0, "t".data,
          MsgKind.Error⟩ ⟨true, false, 4⟩).SourceMarked ++
      (detailStruct ⟨0, "p".data, "p".data, "abcdefg".data⟩
        ⟨some ⟨0, "p".data, "p".data, "abcdefg".data⟩, 5, 0, "t".data,
          MsgKind.Error⟩ ⟨true, false, 4⟩).SourceAfter ≠
      (detailStruct ⟨0, "p".data, "p".data, "abcdefg".data⟩
        ⟨some ⟨0, "p".data, "p".data, "abcdefg".data⟩, 5, 0, "t".data,
          MsgKind.Error⟩ ⟨true, false, 4⟩).Source ∧
    (detailStruct ⟨0, "p".data, "p".data, "abcdefg".data⟩
      ⟨some ⟨0, "p".data, "p".data, "abcdefg".data⟩, 5, 0, "t".data,
        MsgKind.Error⟩ ⟨true, false, 4⟩).SourceBefore.length = 3 ∧
    (detailStruct ⟨0, "p".data, "p".data, "abcdefg".data⟩
      ⟨some ⟨0, "p".data, "p".data, "abcdefg".data⟩, 5, 0, "t".data,
        MsgKind.Error⟩ ⟨true, false, 4⟩).SourceMarked = [] ∧
    (detailStruct ⟨0, "p".data, "p".data, "abcdefg".data⟩
      ⟨some ⟨0, "p".data, "p".data, "abcdefg".data⟩, 5, 0, "t".data,
        MsgKind.Error⟩ ⟨true, false, 4⟩).Source.length = 4 ∧
    (detailStruct ⟨0, "p".data, "p".data, "abcdefg".data⟩
      ⟨some ⟨0, "p".data, "p".data, "abcdefg".data⟩, 5, 0, "t".data,
        MsgKind.Error⟩ ⟨true, false, 4⟩).SourceAfter.length = 2 := by
  decide

/-- `RangeOfString` always returns a range anchored at the given location. -/
theorem RangeOfString_loc (s : Source) (loc : Loc) :
    (Source.RangeOfString s loc).Loc = loc := by
  unfold Source.RangeOfString
  rcases s.Contents.drop loc.Start with _ | ⟨q, rest⟩
  · rfl
  · dsimp only
    split_ifs
    · rcases rangeOfStringAux q rest 1 with _ | i <;> rfl
    · rfl

/-- If the quote scan reports a match at index `j` (having started at
index `i`), then `j ≥ i` and the scanned list holds the quote character at
relative position `j - i`. -/
theorem rangeOfStringAux_get (q : Char) :
    ∀ (n : Nat) (l : List Char) (i j : Nat), l.length ≤ n →
      rangeOfStringAux q l i = some j → i ≤ j ∧ l[j - i]? = some q := by
  intro n
  induction n with
  | zero =>
    intro l i j hl h
    cases l with
    | nil => cases h
    | cons c rest => simp at hl
  | succ n ih =>
    intro l i j hl h
    cases l with
    | nil => cases h
    | cons c rest =>
      rw [rangeOfStringAux.eq_def] at h
      dsimp only at h
      by_cases hq : c = q
      · rw [if_pos hq] at h
        cases h
        subst hq
        simp
      · rw [if_neg hq] at h
        by_cases hb : c = '\\'
        · rw [if_pos hb] at h
          cases rest with
          | nil => cases h
          | cons d rest2 =>
            have hlen : rest2.length ≤ n := by
              simp at hl; omega
            obtain ⟨hij, hget⟩ := ih rest2 (i + 2) j hlen h
            refine ⟨by omega, ?_⟩
            have hidx : j - i = (j - (i + 2)) + 1 + 1 := by omega
            rw [hidx]
            simpa using hget
        · rw [if_neg hb] at h
          have hlen : rest.length ≤ n := by simp at hl; omega
          obtain ⟨hij, hget⟩ := ih rest (i + 1) j hlen h
          refine ⟨by omega, ?_⟩
          have hidx : j - i = (j - (i + 1)) + 1 := by omega
          rw [hidx]
          simpa using hget

/-- C5: the quoted-string scan returns the range from the opening quote
through the first matching unescaped closing quote inclusive when the text
at the location starts with a double or single quote and a match exists
(the closing character of the returned range equals the opening quote); a
backslash makes the scan skip the immediately following character without
testing it as a quote or escape; and the result is a zero-length range when
the remaining text is empty, does not start with a quote character, or has
no matching quote. -/
theorem c5_rangeOfString (s : Source) (loc : Loc) :
    ((Source.RangeOfString s loc).Loc = loc) ∧
    (s.Contents.drop loc.Start = [] → (Source.RangeOfString s loc).Len = 0) ∧
    (∀ (q : Char) (rest : List Char), s.Contents.drop loc.Start = q :: rest →
      q ≠ '"' → q ≠ '\'' → (Source.RangeOfString s loc).Len = 0) ∧
    (∀ (q : Char) (rest : List Char), s.Contents.drop loc.Start = q :: rest →
      (q = '"' ∨ q = '\'') → rangeOfStringAux q rest 1 = none →
      (Source.RangeOfString s loc).Len = 0) ∧
    (∀ (q : Char) (rest : List Char) (j : Nat),
      s.Contents.drop loc.Start = q :: rest → (q = '"' ∨ q = '\'') →
      rangeOfStringAux q rest 1 = some j →
      (Source.RangeOfString s loc).Len = j + 1 ∧ 1 ≤ j ∧
      (s.Contents.drop loc.Start)[j]? = some q) ∧
    (∀ (q d : Char) (rest : List Char) (i : Nat), q ≠ '\\' →
      rangeOfStringAux q ('\\' :: d :: rest) i = rangeOfStringAux q rest (i + 2)) ∧
    (∀ (q : Char) (rest : List Char) (i : Nat),
      rangeOfStringAux q (q :: rest) i = some i) ∧
    (∀ (q c : Char) (rest : List Char) (i : Nat), c ≠ q → c ≠ '\\' →
      rangeOfStringAux q (c :: rest) i = rangeOfStringAux q rest (i + 1)) := by
  refine ⟨RangeOfString_loc s loc, fun h => ?_, fun q rest h hq1 hq2 => ?_,
    fun q rest h hq hnone => ?_, fun q rest j h hq hsome => ?_,
    fun q d rest i hq => ?_, fun q rest i => ?_, fun q c rest i hc hb => ?_⟩
  · unfold Source.RangeOfString
    rw [h]
  · unfold Source.RangeOfString
    rw [h]
    dsimp only
    rw [if_neg (by tauto)]
  · unfold Source.RangeOfString
    rw [h]
    dsimp only
    rw [if_pos hq, hnone]
  · obtain ⟨hij, hget⟩ := rangeOfStringAux_get q rest.length rest 1 j le_rfl hsome
    refine ⟨?_, hij, ?_⟩
    · unfold Source.RangeOfString
      rw [h]
      dsimp only
      rw [if_pos hq, hsome]
    · rw [h]
      have hidx : j = (j - 1) + 1 := by omega
      rw [hidx]
      simpa using hget
  · rw [rangeOfStringAux.eq_def]
    dsimp only
    rw [if_neg (fun hh => hq hh.symm), if_pos rfl]
  · rw [rangeOfStringAux.eq_def]
    dsimp only
    rw [if_pos rfl]
  · rw [rangeOfStringAux.eq_def]
    dsimp only
    rw [if_neg hc, if_neg hb]

/-- msgs accumulation invariant of one worker step. -/
theorem logStep_msgs (options : StderrOptions) (terminalInfo : TerminalInfo)
    (st : stderrLogInfo × List (List Char)) (msg : Msg) :
    ((logStep options terminalInfo st msg).1).msgs = st.1.msgs ++ [msg] := by
  unfold logStep
  rcases hK : msg.Kind <;> dsimp only <;> split_ifs <;> rfl

/-- The worker appends every accepted message to its internal log,
regardless of limit state. -/
theorem runStderrLog_msgs_aux (options : StderrOptions) (terminalInfo : TerminalInfo) :
    ∀ (msgs : List Msg) (st : stderrLogInfo × List (List Char)),
      ((msgs.foldl (logStep options terminalInfo) st).1).msgs = st.1.msgs ++ msgs := by
  intro msgs
  induction msgs with
  | nil => intro st; simp
  | cons m rest ih =>
    intro st
    rw [List.foldl_cons, ih, logStep_msgs]
    simp

/-- The limit-notice line at 2 errors and 0 warnings. -/
theorem limitNotice_two (ms : List Msg) (b : Bool) :
    limitNotice ⟨ms, 2, 0, b⟩ =
      "2 errors reached (disable error limit with --error-limit=0)\n".data := rfl

/-- C2: with `errorLimit = 2` and a log level at which errors are printed,
five enqueued errors write exactly the two rendered messages followed by one
limit-notice line, nothing is written for errors 3 through 5, finalize
writes nothing further, yet the returned accumulated list holds all five
messages -- and, in general, reaching the limit never removes a message
from the accumulated list. -/
theorem c2_error_limit (options : StderrOptions) (terminalInfo : TerminalInfo)
    (m1 m2 m3 m4 m5 : Msg)
    (hlimit : options.ErrorLimit = 2) (hlevel : options.LogLevel ≤ LevelError)
    (h1 : m1.Kind = MsgKind.Error) (h2 : m2.Kind = MsgKind.Error)
    (h3 : m3.Kind = MsgKind.Error) (h4 : m4.Kind = MsgKind.Error)
    (h5 : m5.Kind = MsgKind.Error) :
    (runStderrLog options terminalInfo [m1, m2, m3, m4, m5]).2 =
      [msgString m1 options terminalInfo, msgString m2 options terminalInfo,
        "2 errors reached (disable error limit with --error-limit=0)\n".data] ∧
    (finalizeStderrLog options terminalInfo [m1, m2, m3, m4, m5]).1 =
      [m1, m2, m3, m4, m5] ∧
    (finalizeStderrLog options terminalInfo [m1, m2, m3, m4, m5]).2 =
      (runStderrLog options terminalInfo [m1, m2, m3, m4, m5]).2 ∧
    (∀ msgs : List Msg, (runStderrLog options terminalInfo msgs).1.msgs = msgs) := by
  have hrun : runStderrLog options terminalInfo [m1, m2, m3, m4, m5] =
      (⟨[m1, m2, m3, m4, m5], 2, 0, true⟩,
       [msgString m1 options terminalInfo, msgString m2 options terminalInfo,
        "2 errors reached (disable error limit with --error-limit=0)\n".data]) := by
    unfold runStderrLog
    simp only [List.foldl_cons, List.foldl_nil]
    simp only [logStep, h1, h2, h3, h4, h5, hlimit, hlevel]
    simp [limitNotice_two]
  have hmsgs : ∀ msgs : List Msg, (runStderrLog options terminalInfo msgs).1.msgs = msgs := by
    intro msgs
    have h := runStderrLog_msgs_aux options terminalInfo msgs (⟨[], 0, 0, false⟩, [])
    simpa [runStderrLog] using h
  have hcond : ¬(((runStderrLog options terminalInfo [m1, m2, m3, m4, m5]).1.errorLimitWasHit = false) ∧
      options.LogLevel ≤ LevelInfo ∧
      ((runStderrLog options terminalInfo [m1, m2, m3, m4, m5]).1.warnings ≠ 0 ∨
        (runStderrLog options terminalInfo [m1, m2, m3, m4, m5]).1.errors ≠ 0)) := by
    rw [hrun]; simp
  refine ⟨by rw [hrun], ?_, ?_, hmsgs⟩
  · simp only [finalizeStderrLog]
    rw [if_neg hcond, hrun]
  · simp only [finalizeStderrLog]
    rw [if_neg hcond]

/-- Witness for C2 at a concrete interactive-sink configuration. -/
theorem c2_error_limit_witness :
    ((⟨false, 2, StderrColor.ColorNever, LevelInfo⟩ : StderrOptions).ErrorLimit = 2) ∧
    ((⟨false, 2, StderrColor.ColorNever, LevelInfo⟩ : StderrOptions).LogLevel ≤ LevelError) ∧
    ((⟨none, 0, 0, "boom".data, MsgKind.Error⟩ : Msg).Kind = MsgKind.Error) ∧
    (runStderrLog ⟨false, 2, StderrColor.ColorNever, LevelInfo⟩ ⟨true, false, 0⟩
        [⟨none, 0, 0, "boom".data, MsgKind.Error⟩, ⟨none, 0, 0, "boom".data, MsgKind.Error⟩,
         ⟨none, 0, 0, "boom".data, MsgKind.Error⟩, ⟨none, 0, 0, "boom".data, MsgKind.Error⟩,
         ⟨none, 0, 0, "boom".data, MsgKind.Error⟩]).2 =
      [msgString ⟨none, 0, 0, "boom".data, MsgKind.Error⟩ ⟨false, 2, StderrColor.ColorNever, LevelInfo⟩ ⟨true, false, 0⟩,
       msgString ⟨none, 0, 0, "boom".data, MsgKind.Error⟩ ⟨false, 2, StderrColor.ColorNever, LevelInfo⟩ ⟨true, false, 0⟩,
       "2 errors reached (disable error limit with --error-limit=0)\n".data] ∧
    (finalizeStderrLog ⟨false, 2, StderrColor.ColorNever, LevelInfo⟩ ⟨true, false, 0⟩
        [⟨none, 0, 0, "boom".data, MsgKind.Error⟩, ⟨none, 0, 0, "boom".data, MsgKind.Error⟩,
         ⟨none, 0, 0, "boom".data, MsgKind.Error⟩, ⟨none, 0, 0, "boom".data, MsgKind.Error⟩,
         ⟨none, 0, 0, "boom".data, MsgKind.Error⟩]).1 =
      [⟨none, 0, 0, "boom".data, MsgKind.Error⟩, ⟨none, 0, 0, "boom".data, MsgKind.Error⟩,
       ⟨none, 0, 0, "boom".data, MsgKind.Error⟩, ⟨none, 0, 0, "boom".data, MsgKind.Error⟩,
       ⟨none, 0, 0, "boom".data, MsgKind.Error⟩] ∧
    (finalizeStderrLog ⟨false, 2, StderrColor.ColorNever, LevelInfo⟩ ⟨true, false, 0⟩
        [⟨none, 0, 0, "boom".data, MsgKind.Error⟩, ⟨none, 0, 0, "boom".data, MsgKind.Error⟩,
         ⟨none, 0, 0, "boom".data, MsgKind.Error⟩, ⟨none, 0, 0, "boom".data, MsgKind.Error⟩,
         ⟨none, 0, 0, "boom".data, MsgKind.Error⟩]).2 =
      (runStderrLog ⟨false, 2, StderrColor.ColorNever, LevelInfo⟩ ⟨true, false, 0⟩
        [⟨none, 0, 0, "boom".data, MsgKind.Error⟩, ⟨none, 0, 0, "boom".data, MsgKind.Error⟩,
         ⟨none, 0, 0, "boom".data, MsgKind.Error⟩, ⟨none, 0, 0, "boom".data, MsgKind.Error⟩,
         ⟨none, 0, 0, "boom".data, MsgKind.Error⟩]).2 ∧
    (∀ msgs : List Msg,
      (runStderrLog ⟨false, 2, StderrColor.ColorNever, LevelInfo⟩ ⟨true, false, 0⟩ msgs).1.msgs = msgs) :=
  ⟨rfl, by decide,  rfl,
    c2_error_limit ⟨false, 2, StderrColor.ColorNever, LevelInfo⟩ ⟨true, false, 0⟩
      _ _ _ _ _ rfl (by decide) rfl rfl rfl rfl rfl⟩

/-- C7: on finalize, a trailing summary line `"<summary>\n"` is written if
and only if the error limit was never reached, `logLevel ≤ Info`, and at
least one error or warning was counted; otherwise nothing extra is
written. -/
theorem c7_finalize_summary (options : StderrOptions) (terminalInfo : TerminalInfo)
    (msgs : List Msg) :
    ((finalizeStderrLog options terminalInfo msgs).2 =
        (runStderrLog options terminalInfo msgs).2 ++
          [stderrLogInfo.String (runStderrLog options terminalInfo msgs).1 ++ "\n".data] ↔
      ((runStderrLog options terminalInfo msgs).1.errorLimitWasHit = false ∧
        options.LogLevel ≤ LevelInfo ∧
        ((runStderrLog options terminalInfo msgs).1.warnings ≠ 0 ∨
          (runStderrLog options terminalInfo msgs).1.errors ≠ 0))) ∧
    (¬((runStderrLog options terminalInfo msgs).1.errorLimitWasHit = false ∧
        options.LogLevel ≤ LevelInfo ∧
        ((runStderrLog options terminalInfo msgs).1.warnings ≠ 0 ∨
          (runStderrLog options terminalInfo msgs).1.errors ≠ 0)) →
      (finalizeStderrLog options terminalInfo msgs).2 =
        (runStderrLog options terminalInfo msgs).2) := by
  by_cases hcond : (((runStderrLog options terminalInfo msgs).1.errorLimitWasHit = false) ∧
      options.LogLevel ≤ LevelInfo ∧
      ((runStderrLog options terminalInfo msgs).1.warnings ≠ 0 ∨
        (runStderrLog options terminalInfo msgs).1.errors ≠ 0))
  · simp only [finalizeStderrLog]
    rw [if_pos hcond]
    exact ⟨⟨fun _ => hcond, fun _ => rfl⟩, fun hc => absurd hcond hc⟩
  · simp only [finalizeStderrLog]
    rw [if_neg hcond]
    refine ⟨⟨fun he => ?_, fun hcc => absurd hcc hcond⟩, fun _ => rfl⟩
    have hlen := congrArg List.length he
    simp at hlen

/-- Every character `digitChar` produces is a decimal digit. -/
theorem digitChar_mem (d : Nat) : digitChar d ∈ "0123456789".data := by
  unfold digitChar
  split_ifs <;> decide

/-- Characters of the decimal-rendering loop: from the accumulator or a
digit. -/
theorem mem_natReprAux :
    ∀ (fuel n : Nat) (acc : List Char) (c : Char), c ∈ natReprAux fuel n acc →
      c ∈ acc ∨ c ∈ "0123456789".data := by
  intro fuel
  induction fuel with
  | zero => intro n acc c h; exact Or.inl h
  | succ fuel ih =>
    intro n acc c h
    rw [natReprAux] at h
    by_cases hn : n < 10
    · rw [if_pos hn] at h
      rcases List.mem_cons.mp h with h | h
      · exact Or.inr (h ▸ digitChar_mem n)
      · exact Or.inl h
    · rw [if_neg hn] at h
      rcases ih (n / 10) _ c h with h | h
      · rcases List.mem_cons.mp h with h | h
        · exact Or.inr (h ▸ digitChar_mem (n % 10))
        · exact Or.inl h
      · exact Or.inr h

/-- Every character of a rendered decimal number is a digit. -/
theorem mem_natRepr (n : Nat) (c : Char) (h : c ∈ natRepr n) :
    c ∈ "0123456789".data := by
  rcases mem_natReprAux (n + 1) n [] c h with h | h
  · cases h
  · exact h

/-- Characters of the tab-expansion loop: a space or from the input. -/
theorem mem_renderTabStopsGo (n : Nat) :
    ∀ (l : List Char) (count : Nat) (c : Char),
      c ∈ renderTabStopsGo n l count → c = ' ' ∨ c ∈ l := by
  intro l
  induction l with
  | nil => intro count c h; cases h
  | cons a rest ih =>
    intro count c h
    rw [renderTabStopsGo] at h
    by_cases ha : a = '\t'
    · rw [if_pos ha] at h
      dsimp only at h
      rcases List.mem_append.mp h with h | h
      · exact Or.inl (List.eq_of_mem_replicate h)
      · rcases ih _ c h with h | h
        · exact Or.inl h
        · exact Or.inr (List.mem_cons_of_mem a h)
    · rw [if_neg ha] at h
      rcases List.mem_cons.mp h with h | h
      · exact Or.inr (h ▸ List.mem_cons_self a rest)
      · rcases ih _ c h with h | h
        · exact Or.inl h
        · exact Or.inr (List.mem_cons_of_mem a h)

/-- Characters of `renderTabStops`: a space or from the input. -/
theorem mem_renderTabStops (l : List Char) (n : Nat) (c : Char)
    (h : c ∈ renderTabStops l n) : c = ' ' ∨ c ∈ l := by
  rw [renderTabStops] at h
  by_cases hl : containsRune l '\t' = false
  · rw [if_pos hl] at h; exact Or.inr h
  · rw [if_neg hl] at h; exact mem_renderTabStopsGo n l 0 c h

/-- Characters of the left truncation: an ellipsis dot or from the input. -/
theorem mem_truncLeft (ss : Int) (l : List Char) (m : Int) (c : Char)
    (h : c ∈ (truncLeft ss l m).1) : c = '.' ∨ c ∈ l := by
  rw [truncLeft] at h
  by_cases hc : l.length > 3 ∧ ss > 0
  · rw [if_pos hc] at h
    dsimp only at h
    rcases List.mem_append.mp h with h | h
    · refine Or.inl ?_
      have h3 : c ∈ ['.', '.', '.'] := h
      simp at h3
      exact h3
    · exact Or.inr (List.mem_of_mem_drop h)
  · rw [if_neg hc] at h
    exact Or.inr h

/-- Characters of the right truncation: an ellipsis dot or from the input. -/
theorem mem_truncRight (ll se : Int) (l : List Char) (ms me : Int) (c : Char)
    (h : c ∈ (truncRight ll se l ms me).1) : c = '.' ∨ c ∈ l := by
  rw [truncRight] at h
  by_cases hc : l.length > 3 ∧ se < ll
  · rw [if_pos hc] at h
    dsimp only at h
    rcases List.mem_append.mp h with h | h
    · exact Or.inr (List.mem_of_mem_take h)
    · refine Or.inl ?_
      have h3 : c ∈ ['.', '.', '.'] := h
      simp at h3
      exact h3
  · rw [if_neg hc] at h
    exact Or.inr h

/-- Characters of the width-clipped line: an ellipsis dot or from the
unclipped line. -/
theorem mem_clipToWidth (w : Int) (l : List Char) (a b : Int) (c : Char)
    (h : c ∈ (clipToWidth w l a b).1) : c = '.' ∨ c ∈ l := by
  rw [clipToWidth] at h
  by_cases hc : w > 0 ∧ (l.length : Int) > w
  · rw [if_pos hc] at h
    dsimp only at h
    rcases mem_truncRight _ _ _ _ _ c h with h | h
    · exact Or.inl h
    · rcases mem_truncLeft _ _ _ c h with h | h
      · exact Or.inl h
      · exact Or.inr (List.mem_of_mem_take (List.mem_of_mem_drop h))
  · rw [if_neg hc] at h
    exact Or.inr h
/-- `detailStruct` passes the pretty path through unchanged. -/
theorem detailStruct_Path (src : Source) (msg : Msg) (ti : TerminalInfo) :
    (detailStruct src msg ti).Path = src.PrettyPath := rfl

/-- `detailStruct` passes the message text through unchanged. -/
theorem detailStruct_Message (src : Source) (msg : Msg) (ti : TerminalInfo) :
    (detailStruct src msg ti).Message = msg.Text := rfl

/-- The kind label of `detailStruct` is "error" or "warning". -/
theorem detailStruct_Kind (src : Source) (msg : Msg) (ti : TerminalInfo) :
    (detailStruct src msg ti).Kind = "error".data ∨
      (detailStruct src msg ti).Kind = "warning".data := by
  unfold detailStruct
  dsimp only
  by_cases hk : msg.Kind = MsgKind.Warning
  · rw [if_pos hk]; exact Or.inr rfl
  · rw [if_neg hk]; exact Or.inl rfl

/-- Characters of the displayed line: an ellipsis dot, a space introduced
by tab expansion, or from the source contents. -/
theorem mem_detailStruct_Source (src : Source) (msg : Msg) (ti : TerminalInfo)
    (c : Char) (h : c ∈ (detailStruct src msg ti).Source) :
    c = '.' ∨ c = ' ' ∨ c ∈ src.Contents := by
  unfold detailStruct at h
  dsimp only at h
  rcases mem_clipToWidth _ _ _ _ c h with h | h
  · exact Or.inl h
  · rcases mem_renderTabStops _ _ c h with h | h
    · exact Or.inr (Or.inl h)
    · exact Or.inr (Or.inr (List.mem_of_mem_take (List.mem_of_mem_drop h)))

/-- `SourceBefore` is part of the displayed line. -/
theorem mem_detailStruct_SourceBefore (src : Source) (msg : Msg)
    (ti : TerminalInfo) (c : Char)
    (h : c ∈ (detailStruct src msg ti).SourceBefore) :
    c ∈ (detailStruct src msg ti).Source := by
  unfold detailStruct at h ⊢
  dsimp only at h ⊢
  exact List.mem_of_mem_take h

/-- `SourceMarked` is part of the displayed line. -/
theorem mem_detailStruct_SourceMarked (src : Source) (msg : Msg)
    (ti : TerminalInfo) (c : Char)
    (h : c ∈ (detailStruct src msg ti).SourceMarked) :
    c ∈ (detailStruct src msg ti).Source := by
  unfold detailStruct at h ⊢
  dsimp only at h ⊢
  exact List.mem_of_mem_take (List.mem_of_mem_drop h)

/-- `SourceAfter` is part of the displayed line. -/
theorem mem_detailStruct_SourceAfter (src : Source) (msg : Msg)
    (ti : TerminalInfo) (c : Char)
    (h : c ∈ (detailStruct src msg ti).SourceAfter) :
    c ∈ (detailStruct src msg ti).Source := by
  unfold detailStruct at h ⊢
  dsimp only at h ⊢
  exact List.mem_of_mem_drop h

/-- A character of either branch of a conditional space run is a space. -/
theorem mem_ite_spaces (P : Prop) [Decidable P] (n m : Nat) (c : Char)
    (h : c ∈ if P then List.replicate n ' ' else List.replicate m ' ') :
    c = ' ' := by
  split at h <;> exact List.eq_of_mem_replicate h

/-- A character of the marker glyph is a tilde or a caret. -/
theorem mem_ite_marker (P : Prop) [Decidable P] (k : Nat) (c : Char)
    (h : c ∈ if P then List.replicate k '~' else ['^']) :
    c = '~' ∨ c = '^' := by
  split at h
  · exact Or.inl (List.eq_of_mem_replicate h)
  · refine Or.inr ?_
    have h3 : c ∈ ['^'] := h
    simp at h3
    exact h3

/-- The indent consists only of spaces. -/
theorem mem_detailStruct_Indent (src : Source) (msg : Msg) (ti : TerminalInfo)
    (c : Char) (h : c ∈ (detailStruct src msg ti).Indent) : c = ' ' := by
  unfold detailStruct at h
  dsimp only at h
  exact mem_ite_spaces _ _ _ c h

/-- The marker consists only of tildes or a caret. -/
theorem mem_detailStruct_Marker (src : Source) (msg : Msg) (ti : TerminalInfo)
    (c : Char) (h : c ∈ (detailStruct src msg ti).Marker) :
    c = '~' ∨ c = '^' := by
  unfold detailStruct at h
  dsimp only at h
  exact mem_ite_marker _ _ c h

/-- With color escapes disabled, the rendered message contains no escape
character provided the message text, pretty path and source contents do
not. -/
theorem msgString_no_esc (msg : Msg) (options : StderrOptions)
    (ti : TerminalInfo) (hu : ti.UseColorEscapes = false) (hT : esc ∉ msg.Text)
    (hS : ∀ src : Source, msg.Source = some src →
      esc ∉ src.PrettyPath ∧ esc ∉ src.Contents) :
    esc ∉ msgString msg options ti := by
  have napp : ∀ (a b : List Char), esc ∉ a → esc ∉ b → esc ∉ a ++ b :=
    fun a b ha hb hm => (List.mem_append.mp hm).elim ha hb
  have hkind : esc ∉
      (if msg.Kind = MsgKind.Warning then "warning".data else "error".data) := by
    split <;> decide
  unfold msgString
  rcases hsrc : msg.Source with _ | src
  · dsimp only
    rw [if_neg (by simp [hu])]
    repeat' apply napp
    all_goals first | exact hkind | exact hT | decide
  · dsimp only
    obtain ⟨hP, hC⟩ := hS src hsrc
    by_cases hinc : options.IncludeSource = false
    · rw [if_pos hinc, if_neg (by simp [hu])]
      repeat' apply napp
      all_goals first | exact hP | exact hkind | exact hT | decide
    · rw [if_neg hinc, if_neg (by simp [hu])]
      have hnum : ∀ n : Nat, esc ∉ natRepr n := fun n hm =>
        absurd (mem_natRepr n esc hm) (by decide)
      have hK : esc ∉ (detailStruct src msg ti).Kind := by
        rcases detailStruct_Kind src msg ti with hk | hk <;> rw [hk] <;> decide
      have hSrcLine : esc ∉ (detailStruct src msg ti).Source := fun hm => by
        rcases mem_detailStruct_Source src msg ti esc hm with h | h | h
        · exact absurd h (by decide)
        · exact absurd h (by decide)
        · exact hC h
      have hInd : esc ∉ (detailStruct src msg ti).Indent := fun hm =>
        absurd (mem_detailStruct_Indent src msg ti esc hm) (by decide)
      have hMark : esc ∉ (detailStruct src msg ti).Marker := fun hm => by
        rcases mem_detailStruct_Marker src msg ti esc hm with h | h
        · exact absurd h (by decide)
        · exact absurd h (by decide)
      have hP2 : esc ∉ (detailStruct src msg ti).Path := by
        rw [detailStruct_Path]; exact hP
      have hT2 : esc ∉ (detailStruct src msg ti).Message := by
        rw [detailStruct_Message]; exact hT
      repeat' apply napp
      all_goals first
        | exact hP2
        | exact hT2
        | exact hK
        | exact hSrcLine
        | exact hInd
        | exact hMark
        | exact hnum _
        | decide

/-- With color escapes enabled, the rendered message begins with the bold
escape and therefore contains the escape character. -/
theorem msgString_esc (msg : Msg) (options : StderrOptions)
    (ti : TerminalInfo) (hu : ti.UseColorEscapes = true) :
    esc ∈ msgString msg options ti := by
  have hl : ∀ (a b : List Char), esc ∈ a → esc ∈ a ++ b :=
    fun a b ha => List.mem_append.mpr (Or.inl ha)
  unfold msgString
  rcases hsrc : msg.Source with _ | src
  · dsimp only
    rw [if_pos (by simp [hu])]
    repeat apply hl
    decide
  · dsimp only
    by_cases hinc : options.IncludeSource = false
    · rw [if_pos hinc, if_pos (by simp [hu])]
      repeat apply hl
      decide
    · rw [if_neg hinc, if_pos (by simp [hu])]
      repeat apply hl
      decide
/-- C4: color escape sequences appear in the rendered output exactly when
the adjusted terminal descriptor reports color-escape support, and after the
sink's color-mode adjustment that support holds exactly when the mode is not
`Never` and either the mode is `Always` (overriding the probed support) or
the probe reported support. -/
theorem c4_color_iff (msg : Msg) (options : StderrOptions) (t : TerminalInfo)
    (hT : esc ∉ msg.Text)
    (hS : ∀ src : Source, msg.Source = some src →
      esc ∉ src.PrettyPath ∧ esc ∉ src.Contents) :
    ((esc ∈ msgString msg options (applyColorMode t options.Color)) ↔
      (applyColorMode t options.Color).UseColorEscapes = true) ∧
    ((applyColorMode t options.Color).UseColorEscapes = true ↔
      (options.Color ≠ StderrColor.ColorNever ∧
        (options.Color = StderrColor.ColorAlways ∨ t.UseColorEscapes = true))) := by
  constructor
  · constructor
    · intro hmem
      by_contra hu
      have hu2 : (applyColorMode t options.Color).UseColorEscapes = false := by
        cases hb : (applyColorMode t options.Color).UseColorEscapes
        · rfl
        · exact absurd hb hu
      exact msgString_no_esc msg options _ hu2 hT hS hmem
    · exact msgString_esc msg options _
  · rcases hc : options.Color <;>
      simp [applyColorMode, SupportsColorEscapes]

/-- Witness for C4 at a concrete message and configuration. -/
theorem c4_color_iff_witness :
    (esc ∉ ("t".data : List Char)) ∧
    (((esc ∈ msgString ⟨none, 0, 0, "t".data, MsgKind.Error⟩
          ⟨false, 0, StderrColor.ColorNever, 1⟩
          (applyColorMode ⟨true, true, 0⟩ StderrColor.ColorNever)) ↔
        (applyColorMode ⟨true, true, 0⟩ StderrColor.ColorNever).UseColorEscapes = true) ∧
      ((applyColorMode ⟨true, true, 0⟩ StderrColor.ColorNever).UseColorEscapes = true ↔
        (StderrColor.ColorNever ≠ StderrColor.ColorNever ∧
          (StderrColor.ColorNever = StderrColor.ColorAlways ∨
            (⟨true, true, 0⟩ : TerminalInfo).UseColorEscapes = true)))) :=
  ⟨by decide,
    c4_color_iff ⟨none, 0, 0, "t".data, MsgKind.Error⟩
      ⟨false, 0, StderrColor.ColorNever, 1⟩ ⟨true, true, 0⟩ (by decide)
      (fun src h => by cases h)⟩
end Logging
